import Mathlib

/-!
# Verification of the co-speech gesture analysis scripts

Shallow embedding of the response-triage logic (the `Validator` and the
`Splitter` of the spec), the report-sink emphasis formatter, and the
upload/retry orchestration loop of the `Gemini_API_Co-Speech` repository.

Strings are modelled as `List Char`.  The Python string primitives that the
scripts use (`in`, `split`, `replace`, `strip`, `startswith`, slicing) are
embedded first; the functions of the scripts are then translated on top of
them.

Sources of the definitions:
* `gesture_analysis_doc.py`, `create_analysis_document` (response splitting);
* `gemini2.5_nocontext.py`, `create_analysis_document` (response validation);
* `gemini2.5_analysis_doc.py`, `create_analysis_document` and
  `retry_failed_analysis` (upload loop, budget, retry rounds) and
  `format_text_with_bold` (bold/italic emphasis formatter).
-/

namespace Gesture

/-! ## Python string primitives -/

/-- ASCII characters that Python `str.strip()` / `str.split()` treat as
whitespace: space, tab, newline, carriage return, vertical tab, form feed. -/
def isPySpace (c : Char) : Bool :=
  c = ' ' || c = '\t' || c = '\n' || c = '\r' ||
    c = Char.ofNat 11 || c = Char.ofNat 12

/-- Python `str.strip()`: remove whitespace from both ends. -/
def pyStrip (s : List Char) : List Char :=
  ((s.dropWhile isPySpace).reverse.dropWhile isPySpace).reverse

/-- Split at the first occurrence of `sep`: `firstOcc sep s = some (p, q)`
means `s = p ++ sep ++ q` with `p` not containing `sep`.  `none` means `sep`
does not occur in `s`.  This is the primitive underlying Python's `in`,
`split` and `replace`. -/
def firstOcc (sep : List Char) : List Char → Option (List Char × List Char)
  | [] => if sep.isPrefixOf ([] : List Char) then some ([], []) else none
  | c :: cs =>
    if sep.isPrefixOf (c :: cs) then some ([], (c :: cs).drop sep.length)
    else (firstOcc sep cs).map (fun pr => (c :: pr.1, pr.2))

/-- Python `sep in s` (substring containment). -/
def containsSub (sep s : List Char) : Bool :=
  (firstOcc sep s).isSome

/-- Python `s.split(sep)` for a non-empty `sep`, with fuel (each step consumes
at least one character of `s`, so `s.length + 1` units of fuel suffice). -/
def pySplitAux (sep : List Char) : Nat → List Char → List (List Char)
  | 0, s => [s]
  | fuel + 1, s =>
    match firstOcc sep s with
    | none => [s]
    | some (p, q) => p :: pySplitAux sep fuel q

/-- Python `s.split(sep)` (the scripts only call it with non-empty `sep`). -/
def pySplit (sep s : List Char) : List (List Char) :=
  pySplitAux sep (s.length + 1) s

/-- Python `s.replace(old, new)` for a non-empty `old`, with fuel. -/
def pyReplaceAux (old new : List Char) : Nat → List Char → List Char
  | 0, s => s
  | fuel + 1, s =>
    match firstOcc old s with
    | none => s
    | some (p, q) => p ++ new ++ pyReplaceAux old new fuel q

/-- Python `s.replace(old, new)` (the scripts only call it with non-empty
`old`, so the empty-separator behaviour of Python is not modelled). -/
def pyReplace (old new s : List Char) : List Char :=
  if old.isEmpty then s else pyReplaceAux old new (s.length + 1) s

/-- Python slicing `s[2:-2]` (used on the `**…**` emphasis markers). -/
def pySlice2 (s : List Char) : List Char :=
  (s.take (s.length - 2)).drop 2

/-- Python slicing `s[1:-1]` (used on the `*…*` emphasis markers). -/
def pySlice1 (s : List Char) : List Char :=
  (s.take (s.length - 1)).drop 1

/-! ## The Splitter (`gesture_analysis_doc.py`, `create_analysis_document`,
lines 113-148)

The response-parsing block sits in a `try`: an uncaught `IndexError` (from
`parts[1]` when the delimiter is absent) lands in the `except` branch where no
action/category pair is produced.  The splitter is therefore modelled as a
function into `Option`: `none` is the parse-error branch. -/

/-- The sentinel used when no structure is recognized in the response. -/
def sentinelCategory : List Char := "Category not clearly specified in response".data

/-- The common split strategy of the three marker rules:
`parts = t.split(sep)`, `action = parts[0].replace(marker, "").strip()`,
`category = sep + parts[1].strip()`.  `none` models the `IndexError` raised
by `parts[1]` when `sep` does not occur in `t`. -/
def splitRuleNum (sep marker t : List Char) : Option (List Char × List Char) :=
  match pySplit sep t with
  | p0 :: p1 :: _ => some (pyStrip (pyReplace marker [] p0), sep ++ pyStrip p1)
  | _ => none

/-- `[line.strip() for line in t.split('\n') if line.strip()]`. -/
def responseLines (t : List Char) : List (List Char) :=
  ((pySplit ['\n'] t).map pyStrip).filter (fun l => !l.isEmpty)

/-- `lines[1].startswith(('2.', '2)', 'Category:', 'The gesture'))`. -/
def lineIntroducer (l : List Char) : Bool :=
  "2.".data.isPrefixOf l || "2)".data.isPrefixOf l ||
    "Category:".data.isPrefixOf l || "The gesture".data.isPrefixOf l

/-- Whether the second non-empty trimmed line of `t` starts with a recognized
category-introducer token (the rule-4 condition of the splitter). -/
def secondLineIntroducer (t : List Char) : Bool :=
  match responseLines t with
  | _ :: l1 :: _ => lineIntroducer l1
  | _ => false

/-- The cleanup applied to `action` after the rule chain:
`action = action.replace("1)", "").replace("1.", "").strip()`. -/
def finalActionClean (a : List Char) : List Char :=
  pyStrip (pyReplace "1.".data [] (pyReplace "1)".data [] a))

/-- The splitter of `gesture_analysis_doc.py` (lines 113-148): partition a raw
response into `(action, category)`.  `none` models the `IndexError` path
(caught by the surrounding `except`, which emits no action/category pair). -/
def splitResponse (t : List Char) : Option (List Char × List Char) :=
  let step : Option (List Char × List Char) :=
    if (containsSub "1)".data t && containsSub "2)".data t)
        || (containsSub "1.".data t && containsSub "2.".data t) then
      if containsSub "1)".data t then
        splitRuleNum "2)".data "1)".data t
      else
        splitRuleNum "2.".data "1.".data t
    else if containsSub "Action:".data t && containsSub "Category:".data t then
      splitRuleNum "Category:".data "Action:".data t
    else
      match responseLines t with
      | l0 :: l1 :: _ =>
        if lineIntroducer l1 then some (l0, l1) else some (t, sentinelCategory)
      | _ => some (t, sentinelCategory)
  step.map (fun pr => (finalActionClean pr.1, pr.2))

/-! ## The Validator (`gemini2.5_nocontext.py`, `create_analysis_document`,
lines 383-399 and 457-471) -/

/-- Whether the regex `\d{2}:\d{2}\.\d{3}` matches at the head of `s`. -/
def tsMatchAt (s : List Char) : Bool :=
  match s with
  | d1 :: d2 :: c1 :: d3 :: d4 :: c2 :: d5 :: d6 :: d7 :: _ =>
    d1.isDigit && d2.isDigit && c1 == ':' && d3.isDigit && d4.isDigit &&
      c2 == '.' && d5.isDigit && d6.isDigit && d7.isDigit
  | _ => false

/-- `bool(re.search(r'\d{2}:\d{2}\.\d{3}', t))`: a timestamp-shaped substring
occurs somewhere in `t`. -/
def hasTimestamps : List Char → Bool
  | [] => false
  | c :: cs => tsMatchAt (c :: cs) || hasTimestamps cs

/-- Python `t.split()` (no separator): split on runs of whitespace, dropping
empty words; with fuel (each word consumes at least one character). -/
def pyWordsAux : Nat → List Char → List (List Char)
  | 0, _ => []
  | fuel + 1, s =>
    match s.dropWhile isPySpace with
    | [] => []
    | c :: cs =>
      (c :: cs.takeWhile (fun x => !isPySpace x)) ::
        pyWordsAux fuel (cs.dropWhile (fun x => !isPySpace x))

/-- Python `t.split()` (no separator). -/
def pyWords (s : List Char) : List (List Char) :=
  pyWordsAux (s.length + 1) s

/-- `len(t.split())`: the whitespace-separated word count of `t`. -/
def wordCount (t : List Char) : Nat :=
  (pyWords t).length

/-- Python `str.lower()` (ASCII). -/
def pyLower (s : List Char) : List Char :=
  s.map Char.toLower

/-- The recognized gesture-category keywords, in the order of the script. -/
def gestureTokens : List (List Char) :=
  ["beat".data, "metaphoric".data, "iconic".data, "deictic".data]

/-- `any(token.lower() in t.lower() for token in [...])`. -/
def hasGestureTypes (t : List Char) : Bool :=
  gestureTokens.any (fun tok => containsSub (pyLower tok) (pyLower t))

/-- The word-count threshold hard-coded in the scripts. -/
def defaultMinWords : Nat := 50

/-- `has_sufficient_length = len(t.split()) >= minWords` (the scripts
hard-code `minWords = 50`; the spec makes it a configuration value). -/
def hasSufficientLength (minWords : Nat) (t : List Char) : Bool :=
  decide (minWords ≤ wordCount t)

/-- The validator verdict: the response is stored as usable exactly when none
of `not has_timestamps or not has_sufficient_length or not has_gesture_types`
holds (`gemini2.5_nocontext.py`, lines 383-399). -/
def usableResponse (minWords : Nat) (t : List Char) : Bool :=
  hasTimestamps t && hasSufficientLength minWords t && hasGestureTypes t

/-! ## Spec-level reading of the three validator checks -/

/-- Spec reading of the timestamp check: the text contains a substring of the
shape two digits, colon, two digits, dot, three digits. -/
def HasTimestampShaped (t : List Char) : Prop :=
  ∃ p d1 d2 d3 d4 d5 d6 d7 q,
    t = p ++ d1 :: d2 :: ':' :: d3 :: d4 :: '.' :: d5 :: d6 :: d7 :: q ∧
      (d1.isDigit ∧ d2.isDigit ∧ d3.isDigit ∧ d4.isDigit ∧
        d5.isDigit ∧ d6.isDigit ∧ d7.isDigit)

/-- Spec reading of the keyword check: some recognized category keyword occurs
in the text as a case-insensitive substring. -/
def HasGestureKeyword (t : List Char) : Prop :=
  ∃ tok, tok ∈ gestureTokens ∧ ∃ p q, pyLower t = p ++ pyLower tok ++ q

/-! ## The report-sink emphasis formatter (`gemini2.5_analysis_doc.py`,
`format_text_with_bold`, lines 41-70)

`re.split(r'(\*\*.*?\*\*)', text)` keeps the captured bold groups in the
result list; each non-bold piece is split again by `re.split(r'(\*.*?\*)', …)`
for italics.  A `.` of `re` does not cross a newline, and `.*?` is lazy, so a
match is an opening marker followed by the earliest closing marker with no
newline in between. -/

/-- A formatted run added to the report paragraph. -/
structure DocRun where
  text : List Char
  bold : Bool
  italic : Bool
deriving DecidableEq

/-- Lazy close of the bold pattern: the earliest `**` with no newline before
it; returns the text before the close and the text after the close. -/
def findClose2 : List Char → Option (List Char × List Char)
  | [] => none
  | c :: cs =>
    if "**".data.isPrefixOf (c :: cs) then some ([], (c :: cs).drop 2)
    else if c = '\n' then none
    else (findClose2 cs).map (fun pr => (c :: pr.1, pr.2))

/-- The match of `\*\*.*?\*\*` anchored at the head of `s`:
`some (m, rest)` means `s = m ++ rest` with `m` the matched group. -/
def boldMatchAt (s : List Char) : Option (List Char × List Char) :=
  if "**".data.isPrefixOf s then
    (findClose2 (s.drop 2)).map (fun pr => ("**".data ++ pr.1 ++ "**".data, pr.2))
  else none

/-- The leftmost match of `\*\*.*?\*\*` in `s`:
`some (pre, m, rest)` means `s = pre ++ m ++ rest`. -/
def findBold : List Char → Option (List Char × List Char × List Char)
  | [] => none
  | c :: cs =>
    match boldMatchAt (c :: cs) with
    | some (m, r) => some ([], m, r)
    | none => (findBold cs).map (fun pr => (c :: pr.1, pr.2.1, pr.2.2))

/-- `re.split(r'(\*\*.*?\*\*)', s)` with fuel (every match eats at least four
characters). -/
def reSplitBoldAux : Nat → List Char → List (List Char)
  | 0, s => [s]
  | fuel + 1, s =>
    match findBold s with
    | none => [s]
    | some (p, m, r) => p :: m :: reSplitBoldAux fuel r

/-- `re.split(r'(\*\*.*?\*\*)', s)`. -/
def reSplitBold (s : List Char) : List (List Char) :=
  reSplitBoldAux (s.length + 1) s

/-- Lazy close of the italic pattern: the earliest `*` with no newline before
it. -/
def findClose1 : List Char → Option (List Char × List Char)
  | [] => none
  | c :: cs =>
    if c = '*' then some ([], cs)
    else if c = '\n' then none
    else (findClose1 cs).map (fun pr => (c :: pr.1, pr.2))

/-- The match of `\*.*?\*` anchored at the head of `s`. -/
def italicMatchAt : List Char → Option (List Char × List Char)
  | [] => none
  | c :: cs =>
    if c = '*' then (findClose1 cs).map (fun pr => ('*' :: (pr.1 ++ ['*']), pr.2))
    else none

/-- The leftmost match of `\*.*?\*` in `s`. -/
def findItalic : List Char → Option (List Char × List Char × List Char)
  | [] => none
  | c :: cs =>
    match italicMatchAt (c :: cs) with
    | some (m, r) => some ([], m, r)
    | none => (findItalic cs).map (fun pr => (c :: pr.1, pr.2.1, pr.2.2))

/-- `re.split(r'(\*.*?\*)', s)` with fuel. -/
def reSplitItalicAux : Nat → List Char → List (List Char)
  | 0, s => [s]
  | fuel + 1, s =>
    match findItalic s with
    | none => [s]
    | some (p, m, r) => p :: m :: reSplitItalicAux fuel r

/-- `re.split(r'(\*.*?\*)', s)`. -/
def reSplitItalic (s : List Char) : List (List Char) :=
  reSplitItalicAux (s.length + 1) s

/-- The italic pass over one non-bold piece: pieces that start and end with
`*` lose the markers and become italic runs, the rest are plain runs. -/
def italicRuns (part : List Char) : List DocRun :=
  (reSplitItalic part).map (fun ip =>
    if "*".data.isPrefixOf ip && "*".data.isSuffixOf ip then
      { text := pySlice1 ip, bold := false, italic := true }
    else
      { text := ip, bold := false, italic := false })

/-- `format_text_with_bold`, as the sequence of runs it adds to the
paragraph: pieces wrapped in `**` become bold runs, the rest go through the
italic pass. -/
def formatTextRuns (text : List Char) : List DocRun :=
  ((reSplitBold text).map (fun part =>
    if "**".data.isPrefixOf part && "**".data.isSuffixOf part then
      [{ text := pySlice2 part, bold := true, italic := false }]
    else italicRuns part)).flatten

/-- The concatenation of the texts of a run sequence. -/
def runsText (rs : List DocRun) : List Char :=
  (rs.map DocRun.text).flatten

/-! ## The upload/retry orchestration (`gemini2.5_analysis_doc.py`,
`create_analysis_document` lines 246-391, `retry_failed_analysis`)

Subjects are identified by their position in the queued video list.  The
external service is modelled by an outcome script per subject: the result of
its k-th attempt.  `request_count += 1` runs in the main loop only after
`generate_content` returned (an exception skips it), while in the retry loop
it runs after every attempt on a found, existing file. -/

/-- The observable result of one service attempt for one subject. -/
inductive AttemptOutcome
  | svcError   -- an exception raised during upload/generate
  | noText     -- the call returned but the response carries no usable text
  | invalid    -- text returned, rejected by the validity check
  | valid      -- text returned, accepted by the validity check
deriving DecidableEq

/-- One queued subject: whether its video file exists, and the outcome of its
k-th service attempt (0 = the initial attempt, k+1 = the attempt of retry
round k). -/
structure Subject where
  present : Bool
  outcome : Nat → AttemptOutcome

/-- What happened to a subject in the main loop. -/
inductive Disposition
  | skippedBudget | fileMissing | svcError | noText | invalid | valid
deriving DecidableEq

/-- Whether a main-loop disposition is a recorded per-subject failure. -/
def Disposition.isFailure : Disposition → Bool
  | .fileMissing | .svcError | .noText | .invalid => true
  | _ => false

/-- Whether a main-loop disposition consumed one unit of the request budget
(`request_count += 1` runs exactly when `generate_content` returned). -/
def Disposition.consumesBudget : Disposition → Bool
  | .noText | .invalid | .valid => true
  | _ => false

/-- The request budget consumed by a list of main-loop dispositions. -/
def budgetUsed (ds : List Disposition) : Nat :=
  (ds.filter Disposition.consumesBudget).length

/-- State threaded through the main loop.  `timeBound` records whether
`processing_time` has been assigned by some attempt of this run
(`gemini2.5_analysis_doc.py` line 291): it is assigned only after
`generate_content` returns, and the `finally` block at line 328 reads it
unconditionally. -/
structure MainState where
  count : Nat                 -- request_count
  resolved : List Nat         -- keys of video_responses, insertion order
  errorLog : List Nat         -- keys of error_log, insertion order
  uploads : List (Nat × Nat)  -- (subject, request_count at upload time)
  timeBound : Bool            -- processing_time has been assigned (line 291)
deriving DecidableEq

/-- Processing of one subject inside the main loop (the body of the
`for video_path in video_paths` loop, after the budget check).  Any outcome
on which `generate_content` returned (text or not, valid or not) assigns
`processing_time`, hence sets `timeBound`. -/
def mainStep (i : Nat) (sub : Subject) (s : MainState) : MainState × Disposition :=
  if !sub.present then
    ({ s with errorLog := s.errorLog ++ [i] }, .fileMissing)
  else
    let s' := { s with uploads := s.uploads ++ [(i, s.count)] }
    match sub.outcome 0 with
    | .svcError => ({ s' with errorLog := s'.errorLog ++ [i] }, .svcError)
    | .noText =>
      ({ s' with count := s'.count + 1, errorLog := s'.errorLog ++ [i], timeBound := true }, .noText)
    | .invalid =>
      ({ s' with count := s'.count + 1, errorLog := s'.errorLog ++ [i], timeBound := true }, .invalid)
    | .valid =>
      ({ s' with count := s'.count + 1, resolved := s'.resolved ++ [i], timeBound := true }, .valid)

/-- Whether processing this subject kills the run: an exception during
upload/generate is caught at line 314 (the error is logged first), but the
`finally` at line 328 then runs `processing_times.append((…, processing_time))`
— and `processing_time` is assigned only at line 291, after `generate_content`
returned.  If no attempt of the run has reached line 291, the resulting
`UnboundLocalError` propagates (this variant has no enclosing `try`, neither
in `create_analysis_document` nor in `__main__`) and the run dies before the
report is saved.  When an earlier attempt did assign it, the stale value is
recorded and the run continues. -/
def mainStepAborts (sub : Subject) (s : MainState) : Bool :=
  sub.present && (sub.outcome 0 == AttemptOutcome.svcError) && !s.timeBound

/-- The main loop over the queued subjects (`i` is the position of the first
subject of `subs` in the original list).  On reaching the request ceiling the
loop breaks; the skipped tail is reported with `Disposition.skippedBudget`.
The final `Bool` tells whether the loop died with the `finally`-block
`UnboundLocalError` (see `mainStepAborts`); the subjects after the crash get
no disposition at all. -/
def mainLoop (maxReq : Nat) :
    Nat → List Subject → MainState → MainState × List Disposition × Bool
  | _, [], s => (s, [], false)
  | i, sub :: rest, s =>
    if maxReq ≤ s.count then
      (s, List.replicate (sub :: rest).length .skippedBudget, false)
    else
      let sd := mainStep i sub s
      if mainStepAborts sub s then
        (sd.1, [sd.2], true)
      else
        let sds := mainLoop maxReq (i + 1) rest sd.1
        (sds.1, sd.2 :: sds.2.1, sds.2.2)

/-- State threaded through the retry phase. -/
structure RetryState where
  count : Nat
  resolved : List Nat
  errorFiles : List Nat
  uploads : List (Nat × Nat)
  round : Nat   -- retry_count
deriving DecidableEq

/-- The inner `for error_file in error_files` loop of one retry round: each
found, existing file is re-uploaded and re-analyzed, `request_count` is
incremented for every such attempt, and a valid response resolves the
subject; a missing file is silently skipped.  Breaks at the ceiling. -/
def retryPass (maxReq : Nat) (subs : List Subject) : List Nat → RetryState → RetryState
  | [], s => s
  | i :: rest, s =>
    if maxReq ≤ s.count then s
    else
      match subs.get? i with
      | some sub =>
        if sub.present then
          let out := sub.outcome (s.round + 1)
          let s' : RetryState :=
            { s with
              uploads := s.uploads ++ [(i, s.count)],
              count := s.count + 1,
              resolved := if out = .valid then s.resolved ++ [i] else s.resolved }
          retryPass maxReq subs rest s'
        else retryPass maxReq subs rest s
      | none => retryPass maxReq subs rest s

/-- One round of the retry `while` loop body (after the consent check):
retry every still-failing subject, then drop the ones now resolved and
advance `retry_count`. -/
def retryRound (maxReq : Nat) (subs : List Subject) (s : RetryState) : RetryState :=
  let s' := retryPass maxReq subs s.errorFiles s
  { s' with
    errorFiles := s'.errorFiles.filter (fun i => !s'.resolved.contains i),
    round := s'.round + 1 }

/-- The retry `while` loop.  `auto` is the up-front automatic-retry consent,
`approve r` the operator's answer when asked before round `r`.  The `Bool` of
the result tells whether the loop exited (guard false or operator declined)
within `fuel` rounds; `false` means it was still running after `fuel`
rounds. -/
def retryLoop (maxReq : Nat) (subs : List Subject) (auto : Bool)
    (approve : Nat → Bool) : Nat → RetryState → RetryState × Bool
  | 0, s => (s, false)
  | fuel + 1, s =>
    if s.errorFiles.isEmpty || maxReq ≤ s.count then (s, true)
    else if !auto && !approve s.round then (s, true)
    else retryLoop maxReq subs auto approve fuel (retryRound maxReq subs s)

/-- The state before any subject is processed. -/
def initialMainState : MainState := ⟨0, [], [], [], false⟩

/-- Entry into the retry phase: `error_files = list(error_log.keys())`,
`retry_count = 0`. -/
def toRetryState (m : MainState) : RetryState :=
  ⟨m.count, m.resolved, m.errorLog, m.uploads, 0⟩

/-- The observable outcome of a whole run. -/
structure RunResult where
  final : RetryState           -- state when the run stops
  retryExited : Bool           -- the retry while-loop exited (within fuel)
  dispositions : List Disposition
  aborted : Bool               -- the run died with the finally-block error
deriving DecidableEq

/-- A whole run: main loop, then retry loop (`fuel` bounds the number of
retry rounds observed).  If the main loop dies with the `finally`-block
`UnboundLocalError`, the retry phase and the save step are never reached. -/
def fullRun (maxReq : Nat) (subs : List Subject) (auto : Bool)
    (approve : Nat → Bool) (fuel : Nat) : RunResult :=
  let mds := mainLoop maxReq 0 subs initialMainState
  if mds.2.2 then
    ⟨toRetryState mds.1, false, mds.2.1, true⟩
  else
    let rfin := retryLoop maxReq subs auto approve fuel (toRetryState mds.1)
    ⟨rfin.1, rfin.2, mds.2.1, false⟩

/-- Three queued subjects whose files exist and whose every attempt returns a
valid answer (the budget scenario of the spec with well-behaved service). -/
def threeValidSubjects : List Subject :=
  [⟨true, fun _ => .valid⟩, ⟨true, fun _ => .valid⟩, ⟨true, fun _ => .valid⟩]

/-- Two queued subjects whose files exist; the first subject's upload or
generate call raises on every attempt, the second always returns a valid
answer.  The very first attempt of the run raises, so `processing_time` is
still unbound in the `finally` block. -/
def earlyCrashSubjects : List Subject :=
  [⟨true, fun _ => .svcError⟩, ⟨true, fun _ => .valid⟩]

/-- Three queued subjects whose files exist; the middle subject's generate
call always raises, the others always return valid answers.  The first
attempt completes, so the middle failure is survived. -/
def lateErrorSubjects : List Subject :=
  [⟨true, fun _ => .valid⟩, ⟨true, fun _ => .svcError⟩, ⟨true, fun _ => .valid⟩]

/-- A single queued subject whose video file does not exist. -/
def missingFileSubject : List Subject := [⟨false, fun _ => .valid⟩]

/-! ## Lemmas on the string primitives -/

theorem firstOcc_eq_append {sep s p q : List Char}
    (h : firstOcc sep s = some (p, q)) : s = p ++ sep ++ q := by
  induction s generalizing p q with
  | nil =>
    by_cases hp : sep.isPrefixOf ([] : List Char)
    · have hsep : sep = [] := by
        rcases (List.isPrefixOf_iff_prefix).1 hp with ⟨t, ht⟩
        cases sep <;> simp_all
      simp [firstOcc, hp] at h
      rcases h with ⟨h1, h2⟩
      rw [h1, h2, hsep]
      simp
    · simp [firstOcc, hp] at h
  | cons c cs ih =>
    by_cases hp : sep.isPrefixOf (c :: cs)
    · simp [firstOcc, hp] at h
      rcases h with ⟨h1, h2⟩
      rcases (List.isPrefixOf_iff_prefix).1 hp with ⟨t, ht⟩
      have hdrop : (c :: cs).drop sep.length = t := by
        rw [← ht, List.drop_left]
      subst h1
      rw [← h2, hdrop, ← ht]
      simp
    · rcases hfo : firstOcc sep cs with _ | ⟨p', q'⟩
      · rw [firstOcc] at h
        simp [hp, hfo] at h
      · rw [firstOcc] at h
        simp [hp, hfo] at h
        rcases h with ⟨h1, h2⟩
        have := ih (p := p') (q := q') hfo
        rw [← h1, ← h2, this]
        simp

theorem firstOcc_isSome_of_append (sep p q : List Char) :
    (firstOcc sep (p ++ (sep ++ q))).isSome = true := by
  induction p with
  | nil =>
    have hp : sep.isPrefixOf (sep ++ q) = true :=
      (List.isPrefixOf_iff_prefix).2 ⟨q, rfl⟩
    simp only [List.nil_append]
    cases hsq : sep ++ q with
    | nil => rw [hsq] at hp; simp [firstOcc, hp]
    | cons c cs => rw [hsq] at hp; simp [firstOcc, hp]
  | cons c cs ih =>
    simp only [List.cons_append]
    rw [firstOcc]
    by_cases hp : sep.isPrefixOf (c :: (cs ++ (sep ++ q)))
    · simp [hp]
    · simp [hp, ih]

/-- Python `sep in s` holds exactly when `s` decomposes as `p ++ sep ++ q`. -/
theorem containsSub_iff (sep s : List Char) :
    containsSub sep s = true ↔ ∃ p q, s = p ++ sep ++ q := by
  constructor
  · intro h
    rcases hfo : firstOcc sep s with _ | ⟨p, q⟩
    · simp [containsSub, hfo] at h
    · exact ⟨p, q, firstOcc_eq_append hfo⟩
  · rintro ⟨p, q, rfl⟩
    have := firstOcc_isSome_of_append sep p q
    simpa [containsSub, List.append_assoc] using this

/-- `pySplitAux` never returns the empty list. -/
theorem pySplitAux_ne_nil (sep : List Char) (fuel : Nat) (s : List Char) :
    pySplitAux sep fuel s ≠ [] := by
  cases fuel with
  | zero => simp [pySplitAux]
  | succ n =>
    rcases hfo : firstOcc sep s with _ | pr <;> simp [pySplitAux, hfo]

/-- When `sep` occurs in `s`, `s.split(sep)` has at least two elements, the
first being the text before the first occurrence. -/
theorem pySplit_two_of_contains {sep s : List Char}
    (h : containsSub sep s = true) :
    ∃ p0 p1 rest, pySplit sep s = p0 :: p1 :: rest := by
  rcases hfo : firstOcc sep s with _ | ⟨p, q⟩
  · simp [containsSub, hfo] at h
  · rcases hx : pySplitAux sep s.length q with _ | ⟨p1, rest⟩
    · exact absurd hx (pySplitAux_ne_nil sep s.length q)
    · exact ⟨p, p1, rest, by simp [pySplit, pySplitAux, hfo, hx]⟩

/-! ## Lemmas on the validator checks -/

theorem tsMatchAt_iff (s : List Char) :
    tsMatchAt s = true ↔
      ∃ d1 d2 d3 d4 d5 d6 d7 q,
        s = d1 :: d2 :: ':' :: d3 :: d4 :: '.' :: d5 :: d6 :: d7 :: q ∧
          (d1.isDigit ∧ d2.isDigit ∧ d3.isDigit ∧ d4.isDigit ∧
            d5.isDigit ∧ d6.isDigit ∧ d7.isDigit) := by
  constructor
  · intro h
    rcases s with _ | ⟨d1, s1⟩
    · simp [tsMatchAt] at h
    rcases s1 with _ | ⟨d2, s2⟩
    · simp [tsMatchAt] at h
    rcases s2 with _ | ⟨c1, s3⟩
    · simp [tsMatchAt] at h
    rcases s3 with _ | ⟨d3, s4⟩
    · simp [tsMatchAt] at h
    rcases s4 with _ | ⟨d4, s5⟩
    · simp [tsMatchAt] at h
    rcases s5 with _ | ⟨c2, s6⟩
    · simp [tsMatchAt] at h
    rcases s6 with _ | ⟨d5, s7⟩
    · simp [tsMatchAt] at h
    rcases s7 with _ | ⟨d6, s8⟩
    · simp [tsMatchAt] at h
    rcases s8 with _ | ⟨d7, rest⟩
    · simp [tsMatchAt] at h
    simp only [tsMatchAt, Bool.and_eq_true, beq_iff_eq] at h
    obtain ⟨⟨⟨⟨⟨⟨⟨⟨h1, h2⟩, hc1⟩, h3⟩, h4⟩, hc2⟩, h5⟩, h6⟩, h7⟩ := h
    subst hc1; subst hc2
    exact ⟨d1, d2, d3, d4, d5, d6, d7, rest, rfl, h1, h2, h3, h4, h5, h6, h7⟩
  · rintro ⟨d1, d2, d3, d4, d5, d6, d7, q, rfl, h1, h2, h3, h4, h5, h6, h7⟩
    simp [tsMatchAt, h1, h2, h3, h4, h5, h6, h7]

theorem hasTimestamps_iff_suffix (t : List Char) :
    hasTimestamps t = true ↔ ∃ p q, t = p ++ q ∧ tsMatchAt q = true := by
  induction t with
  | nil =>
    constructor
    · intro h; simp [hasTimestamps] at h
    · rintro ⟨p, q, heq, hm⟩
      rcases List.append_eq_nil.1 heq.symm with ⟨rfl, rfl⟩
      simp [tsMatchAt] at hm
  | cons c cs ih =>
    constructor
    · intro h
      rcases Bool.or_eq_true_iff.1 (by simpa [hasTimestamps] using h) with hm | hrec
      · exact ⟨[], c :: cs, rfl, hm⟩
      · rcases ih.1 hrec with ⟨p, q, heq, hm⟩
        exact ⟨c :: p, q, by rw [heq]; rfl, hm⟩
    · rintro ⟨p, q, heq, hm⟩
      rcases p with _ | ⟨a, p'⟩
      · simp only [List.nil_append] at heq
        subst heq
        simp [hasTimestamps, hm]
      · rcases List.cons_eq_cons.1 heq with ⟨rfl, htl⟩
        have : hasTimestamps cs = true := ih.2 ⟨p', q, htl, hm⟩
        simp [hasTimestamps, this]

/-- The code's `re.search` check agrees with the spec's "contains a
timestamp-shaped substring". -/
theorem hasTimestamps_iff (t : List Char) :
    hasTimestamps t = true ↔ HasTimestampShaped t := by
  rw [hasTimestamps_iff_suffix]
  constructor
  · rintro ⟨p, q, rfl, hm⟩
    rcases (tsMatchAt_iff q).1 hm with ⟨d1, d2, d3, d4, d5, d6, d7, q', rfl, hd⟩
    exact ⟨p, d1, d2, d3, d4, d5, d6, d7, q', rfl, hd⟩
  · rintro ⟨p, d1, d2, d3, d4, d5, d6, d7, q, rfl, hd⟩
    exact ⟨p, _, rfl, (tsMatchAt_iff _).2 ⟨d1, d2, d3, d4, d5, d6, d7, q, rfl, hd⟩⟩

/-- The code's keyword check agrees with the spec's "contains a recognized
keyword as a case-insensitive substring". -/
theorem hasGestureTypes_iff (t : List Char) :
    hasGestureTypes t = true ↔ HasGestureKeyword t := by
  rw [hasGestureTypes, List.any_eq_true]
  constructor
  · rintro ⟨tok, htok, hc⟩
    exact ⟨tok, htok, (containsSub_iff _ _).1 hc⟩
  · rintro ⟨tok, htok, hpq⟩
    exact ⟨tok, htok, (containsSub_iff _ _).2 hpq⟩

/-! ## Claim C1 -/

/-- C1: for every raw answer, the validator's verdict is usable if and only
if all three configured checks pass: the text contains a timestamp-shaped
substring (two digits, colon, two digits, dot, three digits), it has at
least the configured minimum word count (50 by default), and it contains at
least one recognized category keyword as a case-insensitive substring.  In
particular, a raw answer with fewer than the minimum word count is never
usable, regardless of the other two checks. -/
theorem claim1_usable_iff_all_checks (minWords : Nat) (t : List Char) :
    (usableResponse minWords t = true ↔
      (HasTimestampShaped t ∧ minWords ≤ wordCount t ∧ HasGestureKeyword t)) ∧
    (wordCount t < minWords → usableResponse minWords t = false) := by
  constructor
  · rw [usableResponse]
    simp only [Bool.and_eq_true, hasSufficientLength, decide_eq_true_eq]
    rw [hasTimestamps_iff, hasGestureTypes_iff]
    tauto
  · intro hlt
    have hlen : hasSufficientLength minWords t = false := by
      simp only [hasSufficientLength, decide_eq_false_iff_not]
      omega
    simp [usableResponse, hlen]

/-- Witness for C1: a three-word answer carrying a valid timestamp and a
keyword is still rejected at the default threshold 50. -/
theorem claim1_witness :
    wordCount "beat at 00:05.120".data < 50 ∧
      usableResponse 50 "beat at 00:05.120".data = false :=
  ⟨by decide,
    (claim1_usable_iff_all_checks 50 "beat at 00:05.120".data).2 (by decide)⟩

/-! ## Claim C2 -/

/-- C2 counterexample: on the end-to-end scenario answer the code returns the
category with NO space after `2)` — the script writes
`category = "2)" + parts[1].strip()`, gluing the marker directly onto the
stripped remainder — so the category is not the claimed string with a space
after `2)`. -/
theorem claim2_counterexample :
    splitResponse "1) The speaker raises both hands. 2) This is a beat gesture at 00:05.120.".data =
      some ("The speaker raises both hands.".data,
        "2)This is a beat gesture at 00:05.120.".data) ∧
    "2)This is a beat gesture at 00:05.120.".data ≠
      "2) This is a beat gesture at 00:05.120.".data :=
  ⟨by decide, by decide⟩

/-- C2 (amended): on the scenario answer, `split` yields the action
"The speaker raises both hands." and the category
"2)This is a beat gesture at 00:05.120." (no space after the re-prepended
marker), and `validate` with the default keyword set and timestamp pattern
and the word-count threshold lowered to 5 yields `usable = true`. -/
theorem claim2_scenario :
    splitResponse "1) The speaker raises both hands. 2) This is a beat gesture at 00:05.120.".data =
      some ("The speaker raises both hands.".data,
        "2)This is a beat gesture at 00:05.120.".data) ∧
    usableResponse 5 "1) The speaker raises both hands. 2) This is a beat gesture at 00:05.120.".data = true :=
  ⟨by decide, by decide⟩

/-! ## Claims C3, C4, C5 -/

/-- Every element of `responseLines t` is a non-empty (stripped) line. -/
theorem responseLines_ne_nil {t l : List Char} (h : l ∈ responseLines t) :
    l ≠ [] := by
  rw [responseLines] at h
  have hp := List.of_mem_filter h
  intro hl
  rw [hl] at hp
  simp at hp

/-- The category produced by a marker rule is the marker re-prepended to a
stripped piece of the text. -/
theorem splitRuleNum_category {sep marker t a c : List Char}
    (h : splitRuleNum sep marker t = some (a, c)) :
    ∃ p1, c = sep ++ pyStrip p1 := by
  rw [splitRuleNum] at h
  rcases hps : pySplit sep t with _ | ⟨p0, _ | ⟨p1, rest⟩⟩ <;> rw [hps] at h
  · simp at h
  · simp at h
  · simp at h
    exact ⟨p1, h.2.symm⟩

/-- C3 counterexample: the raw answer `"a 1) b"` contains none of the
recognized delimiter patterns, yet the action returned is `"a  b"`, not the
raw text: line 148 of the script removes every `1)` and `1.` from the action
and strips it, in the fallback branch as well. -/
theorem claim3_counterexample :
    (containsSub "1)".data "a 1) b".data && containsSub "2)".data "a 1) b".data) = false ∧
    (containsSub "1.".data "a 1) b".data && containsSub "2.".data "a 1) b".data) = false ∧
    (containsSub "Action:".data "a 1) b".data && containsSub "Category:".data "a 1) b".data) = false ∧
    secondLineIntroducer "a 1) b".data = false ∧
    splitResponse "a 1) b".data = some ("a  b".data, sentinelCategory) ∧
    "a  b".data ≠ "a 1) b".data :=
  ⟨by decide, by decide, by decide, by decide, by decide, by decide⟩

/-- C3 (amended): for every raw answer containing none of the recognized
delimiter patterns (neither the `1)`/`2)` pair, nor the `1.`/`2.` pair, nor
the `Action:`/`Category:` pair, nor a second non-empty line starting with a
recognized introducer token), the splitter returns as action the raw text
with every `1)` and `1.` removed and surrounding whitespace stripped, and as
category the fixed "category not determined" sentinel. -/
theorem claim3_amended (t : List Char)
    (h12p : (containsSub "1)".data t && containsSub "2)".data t) = false)
    (h12d : (containsSub "1.".data t && containsSub "2.".data t) = false)
    (hac : (containsSub "Action:".data t && containsSub "Category:".data t) = false)
    (hsl : secondLineIntroducer t = false) :
    splitResponse t = some (finalActionClean t, sentinelCategory) := by
  rw [splitResponse]
  rcases hrl : responseLines t with _ | ⟨l0, _ | ⟨l1, rest⟩⟩
  · simp [h12p, h12d, hac, hrl]
  · simp [h12p, h12d, hac, hrl]
  · have hli : lineIntroducer l1 = false := by
      have := hsl
      rw [secondLineIntroducer, hrl] at this
      exact this
    simp [h12p, h12d, hac, hrl, hli]

/-- Witness for C3 (amended) at a delimiter-free raw answer with leading
whitespace and a stray `1.`. -/
theorem claim3_witness :
    (containsSub "1)".data " x 1. y ".data && containsSub "2)".data " x 1. y ".data) = false ∧
    (containsSub "1.".data " x 1. y ".data && containsSub "2.".data " x 1. y ".data) = false ∧
    (containsSub "Action:".data " x 1. y ".data && containsSub "Category:".data " x 1. y ".data) = false ∧
    secondLineIntroducer " x 1. y ".data = false ∧
    splitResponse " x 1. y ".data = some (finalActionClean " x 1. y ".data, sentinelCategory) :=
  ⟨by decide, by decide, by decide, by decide,
    claim3_amended " x 1. y ".data (by decide) (by decide) (by decide) (by decide)⟩

/-- C4 counterexample: the non-empty raw answer `"1)"` yields an EMPTY action
(the final cleanup deletes the whole text), refuting "both fields are
non-empty for every non-empty raw answer". -/
theorem claim4_counterexample :
    "1)".data ≠ ([] : List Char) ∧
    splitResponse "1)".data = some (([] : List Char), sentinelCategory) :=
  ⟨by decide, by decide⟩

/-- C4 (amended): whenever the splitter succeeds, the category it returns is
non-empty (a re-prepended marker, a non-empty trimmed line, or the sentinel);
the action, however, can be empty even for a non-empty raw answer. -/
theorem claim4_amended (t a c : List Char) (h : splitResponse t = some (a, c)) :
    c ≠ [] := by
  rw [splitResponse] at h
  simp only [Option.map_eq_some'] at h
  rcases h with ⟨⟨a0, c0⟩, hstep, heq⟩
  have hc : c = c0 := by
    have := congrArg Prod.snd heq
    simpa using this.symm
  rw [hc]
  split at hstep
  · split at hstep
    · rcases splitRuleNum_category hstep with ⟨p1, rfl⟩
      simp
    · rcases splitRuleNum_category hstep with ⟨p1, rfl⟩
      simp
  · split at hstep
    · rcases splitRuleNum_category hstep with ⟨p1, rfl⟩
      simp
    · split at hstep
      · rename_i l0 l1 rest hrl
        split at hstep
        · have hmem : c0 ∈ responseLines t := by
            have : c0 = l1 := by
              have := hstep
              simp at this
              exact this.2.symm
            rw [this, hrl]
            simp
          exact responseLines_ne_nil hmem
        · have : c0 = sentinelCategory := by
            have := hstep
            simp at this
            exact this.2.symm
          rw [this]
          simp [sentinelCategory]
      · have : c0 = sentinelCategory := by
          have := hstep
          simp at this
          exact this.2.symm
        rw [this]
        simp [sentinelCategory]

/-- Witness for C4 (amended) at a two-line answer. -/
theorem claim4_witness :
    splitResponse "x\n2) beat".data = some ("x".data, "2) beat".data) ∧
    "2) beat".data ≠ ([] : List Char) :=
  ⟨by decide, claim4_amended "x\n2) beat".data "x".data "2) beat".data (by decide)⟩

/-- C5 counterexample: the raw answer `"1)1.2."` contains both `1.` and `2.`
but not both `1)` and `2)` — yet rule 2 is NOT applied: because a stray `1)`
is present, the script splits on the absent `2)` and `parts[1]` raises an
`IndexError` (the except branch produces no action/category at all). -/
theorem claim5_counterexample :
    containsSub "1.".data "1)1.2.".data = true ∧
    containsSub "2.".data "1)1.2.".data = true ∧
    ¬(containsSub "1)".data "1)1.2.".data = true ∧
      containsSub "2)".data "1)1.2.".data = true) ∧
    splitResponse "1)1.2.".data = none :=
  ⟨by decide, by decide, by decide, by decide⟩

/-- C5 (amended): for every raw answer that contains both `1.` and `2.` and
does NOT contain `1)` (with a stray `1)` the script instead splits on the
absent `2)` and raises), the splitter applies rule 2 — it splits on `2.`,
the prefix with the `1.` markers removed and stripped becomes the action
(after the final cleanup), and the category is `2.` re-prepended to the
stripped text up to the next occurrence of `2.`, so the category starts with
`2.`. -/
theorem claim5_amended (t : List Char)
    (h1 : containsSub "1.".data t = true)
    (h2 : containsSub "2.".data t = true)
    (h3 : containsSub "1)".data t = false) :
    splitResponse t =
      (splitRuleNum "2.".data "1.".data t).map
        (fun pr => (finalActionClean pr.1, pr.2)) ∧
    ∃ a c, splitResponse t = some (a, c) ∧ "2.".data.isPrefixOf c = true := by
  constructor
  · rw [splitResponse]
    simp [h1, h2, h3]
  · rcases pySplit_two_of_contains h2 with ⟨p0, p1, rest, hps⟩
    refine ⟨finalActionClean (pyStrip (pyReplace "1.".data [] p0)),
      "2.".data ++ pyStrip p1, ?_, ?_⟩
    · simp [splitResponse, h1, h2, h3, splitRuleNum, hps]
    · exact (List.isPrefixOf_iff_prefix).2 ⟨pyStrip p1, rfl⟩

/-- Witness for C5 (amended) at a concrete dotted-marker answer. -/
theorem claim5_witness :
    containsSub "1.".data "1. waves 2. beat".data = true ∧
    containsSub "2.".data "1. waves 2. beat".data = true ∧
    containsSub "1)".data "1. waves 2. beat".data = false ∧
    ∃ a c, splitResponse "1. waves 2. beat".data = some (a, c) ∧
      "2.".data.isPrefixOf c = true :=
  ⟨by decide, by decide, by decide,
    (claim5_amended "1. waves 2. beat".data (by decide) (by decide) (by decide)).2⟩

/-! ## Claim C6 -/

/-- C6: for every raw answer containing both `1)` and `2)` as substrings, the
splitter succeeds and the category it returns starts with `2)`. -/
theorem claim6_category_starts_marker (t : List Char)
    (h1 : containsSub "1)".data t = true)
    (h2 : containsSub "2)".data t = true) :
    ∃ a c, splitResponse t = some (a, c) ∧ "2)".data.isPrefixOf c = true := by
  rcases pySplit_two_of_contains h2 with ⟨p0, p1, rest, hps⟩
  refine ⟨finalActionClean (pyStrip (pyReplace "1)".data [] p0)),
    "2)".data ++ pyStrip p1, ?_, ?_⟩
  · simp [splitResponse, h1, h2, splitRuleNum, hps]
  · exact (List.isPrefixOf_iff_prefix).2 ⟨pyStrip p1, rfl⟩

/-- Witness for C6 at a concrete two-marker answer. -/
theorem claim6_witness :
    containsSub "1)".data "1) waves 2) beat".data = true ∧
    containsSub "2)".data "1) waves 2) beat".data = true ∧
    ∃ a c, splitResponse "1) waves 2) beat".data = some (a, c) ∧
      "2)".data.isPrefixOf c = true :=
  ⟨by decide, by decide,
    claim6_category_starts_marker "1) waves 2) beat".data (by decide) (by decide)⟩

/-! ## Claim C10 -/

/-- A string starting with `**` contains an asterisk. -/
theorem star_mem_of_prefix2 {s : List Char}
    (h : "**".data.isPrefixOf s = true) : '*' ∈ s := by
  rcases (List.isPrefixOf_iff_prefix).1 h with ⟨t, ht⟩
  rw [← ht]
  simp [String.data]

/-- A string starting with `*` contains an asterisk. -/
theorem star_mem_of_prefix1 {s : List Char}
    (h : "*".data.isPrefixOf s = true) : '*' ∈ s := by
  rcases (List.isPrefixOf_iff_prefix).1 h with ⟨t, ht⟩
  rw [← ht]
  simp [String.data]

theorem findBold_eq_none_of_no_star {s : List Char} (h : '*' ∉ s) :
    findBold s = none := by
  induction s with
  | nil => rfl
  | cons c cs ih =>
    have hb : boldMatchAt (c :: cs) = none := by
      rw [boldMatchAt]
      by_cases hp : "**".data.isPrefixOf (c :: cs)
      · exact absurd (star_mem_of_prefix2 hp) h
      · simp [hp]
    have hcs : '*' ∉ cs := fun hm => h (List.mem_cons_of_mem _ hm)
    rw [findBold, hb, ih hcs]
    rfl

theorem findItalic_eq_none_of_no_star {s : List Char} (h : '*' ∉ s) :
    findItalic s = none := by
  induction s with
  | nil => rfl
  | cons c cs ih =>
    have hc : c ≠ '*' := fun hc => h (hc ▸ List.mem_cons_self c cs)
    have hb : italicMatchAt (c :: cs) = none := by
      rw [italicMatchAt]
      simp [hc]
    have hcs : '*' ∉ cs := fun hm => h (List.mem_cons_of_mem _ hm)
    rw [findItalic, hb, ih hcs]
    rfl

theorem reSplitBold_no_star {s : List Char} (h : '*' ∉ s) :
    reSplitBold s = [s] := by
  rw [reSplitBold]
  simp [reSplitBoldAux, findBold_eq_none_of_no_star h]

theorem reSplitItalic_no_star {s : List Char} (h : '*' ∉ s) :
    reSplitItalic s = [s] := by
  rw [reSplitItalic]
  simp [reSplitItalicAux, findItalic_eq_none_of_no_star h]

/-- C10 (implicit claim): on a text containing no asterisk, the emphasis
formatter adds the text to the paragraph unchanged as a single run with
neither bold nor italic set; in particular the concatenation of the run
texts it emits equals the input text exactly. -/
theorem claim10_plain_text_single_run (s : List Char) (h : '*' ∉ s) :
    formatTextRuns s = [⟨s, false, false⟩] ∧
      runsText (formatTextRuns s) = s := by
  have hps2 : "**".data.isPrefixOf s = false := by
    cases hb : "**".data.isPrefixOf s with
    | false => rfl
    | true => exact absurd (star_mem_of_prefix2 hb) h
  have hps1 : "*".data.isPrefixOf s = false := by
    cases hb : "*".data.isPrefixOf s with
    | false => rfl
    | true => exact absurd (star_mem_of_prefix1 hb) h
  have hit : italicRuns s = [⟨s, false, false⟩] := by
    rw [italicRuns, reSplitItalic_no_star h, List.map_cons, List.map_nil]
    simp only [hps1, Bool.false_and, Bool.false_eq_true, if_false]
  have hone : formatTextRuns s = [⟨s, false, false⟩] := by
    rw [formatTextRuns, reSplitBold_no_star h, List.map_cons, List.map_nil]
    simp only [hps2, Bool.false_and, Bool.false_eq_true, if_false, hit]
    rfl
  exact ⟨hone, by rw [hone]; simp [runsText]⟩

/-- Witness for C10 at a concrete asterisk-free text. -/
theorem claim10_witness :
    ('*' ∉ "hello world".data) ∧
    formatTextRuns "hello world".data = [⟨"hello world".data, false, false⟩] ∧
      runsText (formatTextRuns "hello world".data) = "hello world".data :=
  ⟨by decide, claim10_plain_text_single_run "hello world".data (by decide)⟩

/-! ## Lemmas on the orchestration loop -/

theorem mainStep_count (i : Nat) (sub : Subject) (s : MainState) :
    (mainStep i sub s).1.count =
      s.count + (if (mainStep i sub s).2.consumesBudget then 1 else 0) := by
  cases hp : sub.present with
  | false => simp [mainStep, hp, Disposition.consumesBudget]
  | true =>
    cases ho : sub.outcome 0 <;>
      simp [mainStep, hp, ho, Disposition.consumesBudget]

theorem mainStep_errorLog (i : Nat) (sub : Subject) (s : MainState) :
    (mainStep i sub s).1.errorLog =
      s.errorLog ++ (if (mainStep i sub s).2.isFailure then [i] else []) := by
  cases hp : sub.present with
  | false => simp [mainStep, hp, Disposition.isFailure]
  | true =>
    cases ho : sub.outcome 0 <;>
      simp [mainStep, hp, ho, Disposition.isFailure]

theorem mainStep_uploads (i : Nat) (sub : Subject) (s : MainState) :
    (mainStep i sub s).1.uploads = s.uploads ∨
      (mainStep i sub s).1.uploads = s.uploads ++ [(i, s.count)] := by
  cases hp : sub.present with
  | false => left; simp [mainStep, hp]
  | true =>
    right
    cases ho : sub.outcome 0 <;> simp [mainStep, hp, ho]

theorem mainStep_ne_skipped (i : Nat) (sub : Subject) (s : MainState) :
    (mainStep i sub s).2 ≠ .skippedBudget := by
  cases hp : sub.present with
  | false => simp [mainStep, hp]
  | true => cases ho : sub.outcome 0 <;> simp [mainStep, hp, ho]

theorem mainStep_timeBound_mono (i : Nat) (sub : Subject) (s : MainState)
    (h : s.timeBound = true) : (mainStep i sub s).1.timeBound = true := by
  cases hp : sub.present with
  | false => simp [mainStep, hp, h]
  | true => cases ho : sub.outcome 0 <;> simp [mainStep, hp, ho, h]

theorem mainStepAborts_false_of_timeBound {sub : Subject} {s : MainState}
    (h : s.timeBound = true) : mainStepAborts sub s = false := by
  simp [mainStepAborts, h]

theorem budgetUsed_cons (d : Disposition) (ds : List Disposition) :
    budgetUsed (d :: ds) =
      (if d.consumesBudget then 1 else 0) + budgetUsed ds := by
  cases hd : d.consumesBudget
  · simp [budgetUsed, List.filter_cons, hd]
  · simp [budgetUsed, List.filter_cons, hd]
    omega

theorem budgetUsed_replicate_skipped (n : Nat) :
    budgetUsed (List.replicate n Disposition.skippedBudget) = 0 := by
  induction n with
  | zero => rfl
  | succ m ih =>
    rw [List.replicate_succ, budgetUsed_cons, ih]
    simp [Disposition.consumesBudget]

theorem mainLoop_errorLog_mono (maxReq : Nat) (subs : List Subject)
    (i : Nat) (s : MainState) :
    ∃ ext, (mainLoop maxReq i subs s).1.errorLog = s.errorLog ++ ext := by
  induction subs generalizing i s with
  | nil => exact ⟨[], by simp [mainLoop]⟩
  | cons sub rest ih =>
    rw [mainLoop]
    by_cases hb : maxReq ≤ s.count
    · exact ⟨[], by simp [hb]⟩
    · rw [if_neg hb]
      by_cases hab : mainStepAborts sub s = true
      · rw [if_pos hab]
        exact ⟨if (mainStep i sub s).2.isFailure then [i] else [],
          mainStep_errorLog i sub s⟩
      · rw [if_neg hab]
        rcases ih (i + 1) (mainStep i sub s).1 with ⟨ext, hext⟩
        refine ⟨(if (mainStep i sub s).2.isFailure then [i] else []) ++ ext, ?_⟩
        rw [hext, mainStep_errorLog]
        simp [List.append_assoc]

theorem mainLoop_budget_invariant (maxReq : Nat) (subs : List Subject)
    (i : Nat) (s : MainState)
    (hc : s.count ≤ maxReq) (hu : ∀ p ∈ s.uploads, p.2 < maxReq) :
    (mainLoop maxReq i subs s).1.count ≤ maxReq ∧
      ∀ p ∈ (mainLoop maxReq i subs s).1.uploads, p.2 < maxReq := by
  induction subs generalizing i s hc hu with
  | nil => exact ⟨hc, hu⟩
  | cons sub rest ih =>
    rw [mainLoop]
    by_cases hb : maxReq ≤ s.count
    · rw [if_pos hb]; exact ⟨hc, hu⟩
    · have hs1 : (mainStep i sub s).1.count ≤ s.count + 1 := by
        rw [mainStep_count]; split <;> omega
      have hsc : (mainStep i sub s).1.count ≤ maxReq := by omega
      have hsu : ∀ p ∈ (mainStep i sub s).1.uploads, p.2 < maxReq := by
        intro p hp
        rcases mainStep_uploads i sub s with hup | hup
        · rw [hup] at hp; exact hu p hp
        · rw [hup] at hp
          rcases List.mem_append.1 hp with hmem | hmem
          · exact hu p hmem
          · simp at hmem
            rw [hmem]
            omega
      rw [if_neg hb]
      by_cases hab : mainStepAborts sub s = true
      · rw [if_pos hab]
        exact ⟨hsc, hsu⟩
      · rw [if_neg hab]
        exact ih (i + 1) (mainStep i sub s).1 hsc hsu

theorem retryPass_invariant (maxReq : Nat) (subs : List Subject)
    (fs : List Nat) (s : RetryState)
    (hc : s.count ≤ maxReq) (hu : ∀ p ∈ s.uploads, p.2 < maxReq) :
    (retryPass maxReq subs fs s).count ≤ maxReq ∧
      ∀ p ∈ (retryPass maxReq subs fs s).uploads, p.2 < maxReq := by
  induction fs generalizing s hc hu with
  | nil => exact ⟨hc, hu⟩
  | cons j rest ih =>
    rw [retryPass]
    by_cases hb : maxReq ≤ s.count
    · rw [if_pos hb]; exact ⟨hc, hu⟩
    · rw [if_neg hb]
      rcases hg : subs.get? j with _ | sub
      · simp only [hg]
        exact ih s hc hu
      · simp only [hg]
        cases hp : sub.present with
        | false =>
          rw [if_neg (by simp [hp])]
          exact ih s hc hu
        | true =>
          rw [if_pos (by simp [hp])]
          apply ih
          · simp only []
            omega
          · intro p hpmem
            simp only [] at hpmem
            rcases List.mem_append.1 hpmem with hmem | hmem
            · exact hu p hmem
            · simp at hmem
              rw [hmem]
              omega

theorem retryRound_invariant (maxReq : Nat) (subs : List Subject) (s : RetryState)
    (hc : s.count ≤ maxReq) (hu : ∀ p ∈ s.uploads, p.2 < maxReq) :
    (retryRound maxReq subs s).count ≤ maxReq ∧
      ∀ p ∈ (retryRound maxReq subs s).uploads, p.2 < maxReq := by
  have := retryPass_invariant maxReq subs s.errorFiles s hc hu
  exact ⟨this.1, this.2⟩

theorem retryLoop_invariant (maxReq : Nat) (subs : List Subject) (auto : Bool)
    (approve : Nat → Bool) (fuel : Nat) (s : RetryState)
    (hc : s.count ≤ maxReq) (hu : ∀ p ∈ s.uploads, p.2 < maxReq) :
    (retryLoop maxReq subs auto approve fuel s).1.count ≤ maxReq ∧
      ∀ p ∈ (retryLoop maxReq subs auto approve fuel s).1.uploads, p.2 < maxReq := by
  induction fuel generalizing s hc hu with
  | zero => exact ⟨hc, hu⟩
  | succ n ih =>
    rw [retryLoop]
    by_cases hg : (s.errorFiles.isEmpty || decide (maxReq ≤ s.count)) = true
    · rw [if_pos hg]; exact ⟨hc, hu⟩
    · rw [if_neg hg]
      by_cases ha : (!auto && !approve s.round) = true
      · rw [if_pos ha]; exact ⟨hc, hu⟩
      · rw [if_neg ha]
        have hinv := retryRound_invariant maxReq subs s hc hu
        exact ih (retryRound maxReq subs s) hinv.1 hinv.2


/-! ## Claim C7 -/

/-- C7 counterexample: with ceiling 2 and three subjects queued, the third
subject IS uploaded when the middle subject's generate call raises after the
first attempt completed: the failed attempt does not increment
`request_count`, so three attempts are issued under a ceiling of 2 and the
third subject is contacted. -/
theorem claim7_counterexample :
    (fullRun 2 lateErrorSubjects true (fun _ => true) 0).final.uploads.map Prod.fst =
      [0, 1, 2] ∧
    (fullRun 2 lateErrorSubjects true (fun _ => true) 0).aborted = false ∧
    ¬((fullRun 2 lateErrorSubjects true (fun _ => true) 0).final.uploads.length ≤ 2) :=
  ⟨by decide, by decide, by decide⟩

/-- C7 (amended): the request counter — which counts main-loop attempts whose
generate call returned, and every retry attempt on a found, existing file —
never exceeds the configured ceiling, and every upload happens while the
counter is strictly below the ceiling (once the ceiling is reached no further
subject is contacted).  With ceiling 2, three subjects queued, and every
attempt completing as a valid answer, exactly the first two subjects receive
an attempt and the third is never uploaded or analyzed.  An attempt that
raises during upload/generate does not increment the counter: when an earlier
attempt of the run has completed, the run survives the failure and a later
subject is still contacted without it counting against the ceiling; when none
has, the failure aborts the whole run instead. -/
theorem claim7_amended :
    (∀ maxReq subs auto approve fuel,
      (fullRun maxReq subs auto approve fuel).final.count ≤ maxReq ∧
        ∀ p ∈ (fullRun maxReq subs auto approve fuel).final.uploads, p.2 < maxReq) ∧
    ((fullRun 2 threeValidSubjects true (fun _ => true) 1).dispositions =
      [.valid, .valid, .skippedBudget] ∧
     (fullRun 2 threeValidSubjects true (fun _ => true) 1).final.uploads.map Prod.fst =
      [0, 1] ∧
     (fullRun 2 threeValidSubjects true (fun _ => true) 1).final.count = 2) ∧
    ((fullRun 2 lateErrorSubjects true (fun _ => true) 0).aborted = false ∧
     (fullRun 2 lateErrorSubjects true (fun _ => true) 0).final.uploads.map Prod.fst =
      [0, 1, 2] ∧
     (fullRun 2 lateErrorSubjects true (fun _ => true) 0).final.count = 2) := by
  refine ⟨?_, ⟨by decide, by decide, by decide⟩, by decide, by decide, by decide⟩
  intro maxReq subs auto approve fuel
  have hm := mainLoop_budget_invariant maxReq subs 0 initialMainState
    (by simp [initialMainState]) (by simp [initialMainState])
  have hr := retryLoop_invariant maxReq subs auto approve fuel
    (toRetryState (mainLoop maxReq 0 subs initialMainState).1) hm.1 hm.2
  simp only [fullRun]
  split
  · exact ⟨hm.1, hm.2⟩
  · exact hr

/-- Witness for C7 (amended): the first upload of the budget scenario happens
at counter value 0, below the ceiling 2. -/
theorem claim7_witness :
    (0, 0) ∈ (fullRun 2 threeValidSubjects true (fun _ => true) 1).final.uploads ∧
      (0 : Nat) < 2 :=
  ⟨by decide,
    (claim7_amended.1 2 threeValidSubjects true (fun _ => true) 1).2 (0, 0) (by decide)⟩

/-! ## Claim C8 -/

/-- C8 counterexample: an upload/generate failure on the very first attempted
subject aborts the whole run.  The except block records the error, but the
finally block then reads `processing_time`, which no attempt has assigned,
and the `UnboundLocalError` propagates: the second subject receives no
disposition and is never uploaded, and the report save step is never
reached. -/
theorem claim8_counterexample :
    (mainLoop 5 0 earlyCrashSubjects initialMainState).2.2 = true ∧
    (mainLoop 5 0 earlyCrashSubjects initialMainState).2.1 = [.svcError] ∧
    (mainLoop 5 0 earlyCrashSubjects initialMainState).2.1.length ≠
      earlyCrashSubjects.length ∧
    (mainLoop 5 0 earlyCrashSubjects initialMainState).1.uploads.map Prod.fst = [0] ∧
    (fullRun 5 earlyCrashSubjects true (fun _ => true) 3).aborted = true :=
  ⟨by decide, by decide, by decide, by decide, by decide⟩

/-- C8 (amended): per-subject failures are caught and recorded and the main
loop continues — except an upload/generate failure occurring before any
attempt of the run has completed `generate_content`, which kills the run via
the finally-block `UnboundLocalError`.  Precisely: (1) when the loop does not
die, every queued subject receives a disposition; (2) every subject whose
attempt failed is recorded in the error log, crash or not; (3) a subject is
skipped only because the budget consumed by the dispositions before it
reached the ceiling — never because an earlier subject failed; (4) once some
attempt has completed (`processing_time` is bound), no later failure aborts
the loop. -/
theorem claim8_amended (maxReq : Nat) (subs : List Subject)
    (i : Nat) (s : MainState) :
    ((mainLoop maxReq i subs s).2.2 = false →
      (mainLoop maxReq i subs s).2.1.length = subs.length) ∧
    (∀ j, ∀ hj : j < (mainLoop maxReq i subs s).2.1.length,
      ((mainLoop maxReq i subs s).2.1.get ⟨j, hj⟩).isFailure = true →
        (i + j) ∈ (mainLoop maxReq i subs s).1.errorLog) ∧
    (∀ j, ∀ hj : j < (mainLoop maxReq i subs s).2.1.length,
      (mainLoop maxReq i subs s).2.1.get ⟨j, hj⟩ = .skippedBudget →
        maxReq ≤ s.count + budgetUsed ((mainLoop maxReq i subs s).2.1.take j)) ∧
    (s.timeBound = true → (mainLoop maxReq i subs s).2.2 = false) := by
  induction subs generalizing i s with
  | nil =>
    refine ⟨fun _ => by rw [mainLoop]; rfl, ?_, ?_, fun _ => by rw [mainLoop]⟩
    · intro j hj
      rw [mainLoop] at hj
      simp at hj
    · intro j hj
      rw [mainLoop] at hj
      simp at hj
  | cons sub rest ih =>
    rw [mainLoop]
    by_cases hb : maxReq ≤ s.count
    · rw [if_pos hb]
      refine ⟨fun _ => by simp, ?_, ?_, fun _ => rfl⟩
      · intro j hj hfail
        rw [List.get_eq_getElem, List.getElem_replicate] at hfail
        simp [Disposition.isFailure] at hfail
      · intro j hj _
        have : budgetUsed ((List.replicate (sub :: rest).length
            Disposition.skippedBudget).take j) = 0 := by
          rw [List.take_replicate, budgetUsed_replicate_skipped]
        omega
    · rw [if_neg hb]
      by_cases hab : mainStepAborts sub s = true
      · rw [if_pos hab]
        refine ⟨?_, ?_, ?_, ?_⟩
        · intro hcr
          simp at hcr
        · intro j hj hfail
          rcases j with _ | j
          · have hd := mainStep_errorLog i sub s
            simp at hfail
            rw [hfail] at hd
            simp at hd
            show (i + 0) ∈ (mainStep i sub s).1.errorLog
            rw [hd]
            simp
          · simp at hj
        · intro j hj hskip
          rcases j with _ | j
          · exact absurd (by simpa using hskip) (mainStep_ne_skipped i sub s)
          · simp at hj
        · intro ht
          rw [mainStepAborts_false_of_timeBound ht] at hab
          simp at hab
      · rw [if_neg hab]
        rcases ih (i + 1) (mainStep i sub s).1 with ⟨ihlen, ihfail, ihskip, ihtb⟩
        refine ⟨?_, ?_, ?_, ?_⟩
        · intro hcr
          have hlen := ihlen (by simpa using hcr)
          simpa using hlen
        · intro j hj hfail
          rcases j with _ | j
          · have hd := mainStep_errorLog i sub s
            simp at hfail
            rw [hfail] at hd
            simp at hd
            have hmem : i ∈ (mainStep i sub s).1.errorLog := by
              rw [hd]; simp
            rcases mainLoop_errorLog_mono maxReq rest (i + 1) (mainStep i sub s).1
              with ⟨ext, hext⟩
            simp only [List.get]
            rw [hext]
            simpa using Or.inl hmem
          · have hj2 : j < (mainLoop maxReq (i + 1) rest (mainStep i sub s).1).2.1.length := by
              simpa using Nat.lt_of_succ_lt_succ (by simpa using hj)
            have := ihfail j hj2 (by simpa using hfail)
            simpa [Nat.add_assoc, Nat.add_comm 1 j] using this
        · intro j hj hskip
          rcases j with _ | j
          · exact absurd (by simpa using hskip) (mainStep_ne_skipped i sub s)
          · have hj2 : j < (mainLoop maxReq (i + 1) rest (mainStep i sub s).1).2.1.length := by
              simpa using Nat.lt_of_succ_lt_succ (by simpa using hj)
            have hrec := ihskip j hj2 (by simpa using hskip)
            have hcnt := mainStep_count i sub s
            have htake : List.take (j + 1) ((mainStep i sub s).2 ::
                (mainLoop maxReq (i + 1) rest (mainStep i sub s).1).2.1) =
                (mainStep i sub s).2 ::
                  List.take j (mainLoop maxReq (i + 1) rest (mainStep i sub s).1).2.1 := rfl
            rw [hcnt] at hrec
            show maxReq ≤ s.count + budgetUsed (List.take (j + 1) ((mainStep i sub s).2 ::
                (mainLoop maxReq (i + 1) rest (mainStep i sub s).1).2.1))
            rw [htake, budgetUsed_cons]
            by_cases hcb : (mainStep i sub s).2.consumesBudget = true
            · rw [if_pos hcb] at hrec ⊢
              omega
            · rw [if_neg hcb] at hrec ⊢
              omega
        · intro ht
          exact ihtb (mainStep_timeBound_mono i sub s ht)

/-- Witness for C8 (amended): the missing-file subject at position 0 is
recorded in the error log, and from a state in which an earlier attempt has
completed, the first subject's service failure does not abort the loop. -/
theorem claim8_witness :
    (0 : Nat) ∈ (mainLoop 450 0 missingFileSubject initialMainState).1.errorLog ∧
    (mainLoop 450 0 earlyCrashSubjects ⟨0, [], [], [], true⟩).2.2 = false :=
  ⟨(claim8_amended 450 missingFileSubject 0 initialMainState).2.1 0 (by decide) (by decide),
   (claim8_amended 450 earlyCrashSubjects 0 ⟨0, [], [], [], true⟩).2.2.2 rfl⟩

/-! ## Claim C9 -/

/-- At the stuck state — one unresolved subject whose file is missing — one
retry round changes nothing but the round counter: the subject is skipped
(no upload, no budget), stays unresolved, and stays in the error queue. -/
theorem retryRound_missing_fixpoint (r : Nat) :
    retryRound 450 missingFileSubject ⟨0, [], [0], [], r⟩ =
      ⟨0, [], [0], [], r + 1⟩ := rfl

/-- With automatic retries enabled, the retry loop at the stuck state runs
any number of rounds without exiting. -/
theorem retryLoop_missing_stuck (fuel : Nat) : ∀ r : Nat,
    retryLoop 450 missingFileSubject true (fun _ => true) fuel ⟨0, [], [0], [], r⟩ =
      (⟨0, [], [0], [], r + fuel⟩, false) := by
  induction fuel with
  | zero => intro r; rfl
  | succ n ih =>
    intro r
    rw [retryLoop]
    rw [if_neg (by simp)]
    rw [if_neg (by simp)]
    rw [retryRound_missing_fixpoint r, ih (r + 1)]
    have : r + 1 + n = r + (n + 1) := by omega
    rw [this]

/-- C9 (behaviour of the code at the failing input): with a single queued
subject whose video file does not exist and automatic retries enabled, the
retry loop never exits — after any number of rounds the error queue still
holds the subject, no request budget has been consumed, and the exit flag is
still false — so the report save step is never reached, contradicting the
claim that every run terminates in report finalization. -/
theorem claim9_retry_loop_never_exits : ∀ fuel : Nat,
    (fullRun 450 missingFileSubject true (fun _ => true) fuel).retryExited = false ∧
    (fullRun 450 missingFileSubject true (fun _ => true) fuel).final.errorFiles = [0] ∧
    (fullRun 450 missingFileSubject true (fun _ => true) fuel).final.count = 0 := by
  intro fuel
  have hmain : mainLoop 450 0 missingFileSubject initialMainState =
      (⟨0, [], [0], [], false⟩, [Disposition.fileMissing], false) := rfl
  have hloop := retryLoop_missing_stuck fuel 0
  have hzero : (0 : Nat) + fuel = fuel := by omega
  rw [hzero] at hloop
  refine ⟨?_, ?_, ?_⟩ <;>
    simp [fullRun, hmain, toRetryState, hloop]

end Gesture
